import Mathlib

/-!
Shallow embedding of samtools `bam_mate.c` (fixmate): the template batch
reader (`next_template`), the per-record sanitizer (`bam_sanitize`,
`bam_trim`, the auxiliary-tag compaction pass), the mate synchronizer
(`sync_mate`, `sync_mq_mc`, insert-size computation, proper-pair
plausibility) and the per-template orchestration of `bam_mating_core`.

Machine integers `hts_pos_t`/`int` are modelled as `Int`; unsigned byte
and length quantities as `Nat`.  The packed record buffer is modelled
field by field: the CIGAR as a list of `(oplen, op)` pairs and the
auxiliary-tag stream as a list of entries `(key byte 0, key byte 1,
body bytes)` in stream order.  Flag bits of `bam1_core_t.flag` are
modelled as named booleans.  Fallible C paths (`malloc` failure is
assumed to succeed; out-of-bounds writes reachable in the C are
modelled as `none`).
-/

namespace BamMate

/-- Flag bits of `bam1_core_t.flag` used by `bam_mate.c`
(`BAM_FPAIRED`, `BAM_FPROPER_PAIR`, `BAM_FUNMAP`, `BAM_FMUNMAP`,
`BAM_FREVERSE`, `BAM_FMREVERSE`, `BAM_FREAD1`, `BAM_FSECONDARY`,
`BAM_FSUPPLEMENTARY`). -/
structure Flags where
  paired : Bool
  proper : Bool
  unmap : Bool
  munmap : Bool
  reverse : Bool
  mreverse : Bool
  read1 : Bool
  secondary : Bool
  supp : Bool
deriving Repr, DecidableEq, Inhabited

/-- One entry of the auxiliary-tag byte stream: two key bytes and the
body (type byte followed by the payload bytes). -/
structure AuxEntry where
  k0 : Nat
  k1 : Nat
  body : List Nat
deriving Repr, DecidableEq, Inhabited

/-- Model of `bam1_t`: the core fields touched by `bam_mate.c` plus the
three variable regions (CIGAR list, per-base qualities, aux stream). -/
structure Rec1 where
  qname : String
  flag : Flags
  tid : Int
  pos : Int
  qual : Nat
  mtid : Int
  mpos : Int
  isize : Int
  cigar : List (Nat × Nat)
  qseq : List Nat
  aux : List AuxEntry
deriving Repr, DecidableEq, Inhabited

/-- `bam_cigar_type`: 2-bit type per op from table `0x3C1A7`
("MIDNSHP=XB": M=3 I=1 D=2 N=2 S=1 H=0 P=0 ==3 X=3 B=0). -/
def cigarType (op : Nat) : Nat :=
  match op with
  | 0 => 3 | 1 => 1 | 2 => 2 | 3 => 2 | 4 => 1
  | 7 => 3 | 8 => 3 | _ => 0

/-- `bam_cigar_type(op) & 2`: the operation consumes reference. -/
def consumesRef (op : Nat) : Bool := (cigarType op) &&& 2 != 0

/-- `bam_cigar2rlen`: total reference length consumed by a CIGAR. -/
def cigar2rlen (cigar : List (Nat × Nat)) : Nat :=
  cigar.foldl (fun l lo => if consumesRef lo.2 then l + lo.1 else l) 0

/-- htslib `bam_endpos`: `pos` + reference length consumed (0 if the
unmapped flag is set), with a minimum length of 1. -/
def bamEndpos (b : Rec1) : Int :=
  let rlen : Int := if b.flag.unmap then 0 else (cigar2rlen b.cigar : Int)
  b.pos + (if rlen = 0 then 1 else rlen)

/-- The walk at the top of `bam_trim`: accumulate reference-consumed
length over the CIGAR starting from `pos`; stop at the first operation
taking the accumulated position strictly past `end_`, returning its
index, the accumulated position, and its op/oplen; `none` if the list
is exhausted (`i == n_cigar`, nothing to trim). -/
def trimWalk (end_ : Int) : List (Nat × Nat) → Int → Nat →
    Option (Nat × Int × Nat × Nat)
  | [], _, _ => none
  | (len, op) :: rest, pos, i =>
    if consumesRef op then
      let pos' := pos + (len : Int)
      if pos' > end_ then some (i, pos', op, len)
      else trimWalk end_ rest pos' (i + 1)
    else trimWalk end_ rest pos (i + 1)

/-- Replace the last element of the pending new CIGAR by a soft clip of
its length plus `len` (`new_cigar[j-1] = gen(oplen(new_cigar[j-1]) +
oplen, SOFT_CLIP)`); `none` when the list is empty (the C would write
before the start of `new_cigar`). -/
def setLastSoft (nc : List (Nat × Nat)) (len : Nat) : Option (List (Nat × Nat)) :=
  match nc with
  | [] => none
  | [x] => some [(x.1 + len, 4)]
  | x :: xs => (setLastSoft xs len).map (x :: ·)

/-- The trailing-element loop of `bam_trim`: hard clips are kept
verbatim, every other operation is absorbed into the last pending
element as a lengthened soft clip. -/
def absorbTail : List (Nat × Nat) → List (Nat × Nat) → Option (List (Nat × Nat))
  | [], nc => some nc
  | (len, op) :: rest, nc =>
    if op = 5 then absorbTail rest (nc ++ [(len, op)])
    else
      match setLastSoft nc len with
      | none => none
      | some nc' => absorbTail rest nc'

/-- `bam_trim(b, end)`: trim the CIGAR to end on reference position
`end_`, turning remaining bases into soft clips.  Mirrors the source:
the walk, then the three-way branch on the triggering operation
(partial split / `pos > end` marks unmapped and clears proper-pair /
op starting on the junction becomes a full soft clip), then the
trailing absorption and CIGAR replacement. -/
def bamTrim (b : Rec1) (end_ : Int) : Option Rec1 :=
  match trimWalk end_ b.cigar b.pos 0 with
  | none => some b
  | some (i, pos, op, oplen) =>
    let tail := b.cigar.drop (i + 1)
    if pos - (oplen : Int) < end_ then
      let kept := b.cigar.take i ++ [((end_ - (pos - (oplen : Int))).toNat, op)]
      match absorbTail tail [((pos - end_).toNat, 4)] with
      | none => none
      | some nc => some { b with cigar := kept ++ nc }
    else if pos > end_ then
      match absorbTail tail [] with
      | none => none
      | some nc =>
        some { b with
               flag := { b.flag with unmap := true, proper := false },
               cigar := b.cigar.take i ++ nc }
    else
      match absorbTail tail [(oplen, 4)] with
      | none => none
      | some nc => some { b with cigar := b.cigar.take i ++ nc }

/-- Sanitizer fix-category bitmask (`FIX_POS`, `FIX_MQUAL`,
`FIX_UNMAP`, `FIX_CIGAR`, `FIX_AUX`) as named booleans. -/
structure FixFlags where
  pos : Bool
  mqual : Bool
  unmap : Bool
  cigar : Bool
  aux : Bool
deriving Repr, DecidableEq, Inhabited

/-- `FIX_ALL`: every fix category enabled. -/
def fixAll : FixFlags := ⟨true, true, true, true, true⟩

/-- `XTAG("NM")` = `('N'<<8) + 'M'`. -/
def xtagNM : Nat := 'N'.toNat * 256 + 'M'.toNat
/-- `XTAG("MD")`. -/
def xtagMD : Nat := 'M'.toNat * 256 + 'D'.toNat
/-- `XTAG("CG")`. -/
def xtagCG : Nat := 'C'.toNat * 256 + 'G'.toNat
/-- `XTAG("SM")`. -/
def xtagSM : Nat := 'S'.toNat * 256 + 'M'.toNat

/-- Keep predicate of the aux compaction pass: the entry's key
(`from[0]<<8 | from[1]`) is none of NM, MD, CG, SM. -/
def keepAux (e : AuxEntry) : Bool :=
  let key := e.k0 * 256 + e.k1
  key ≠ xtagNM ∧ key ≠ xtagMD ∧ key ≠ xtagCG ∧ key ≠ xtagSM

/-- The aux compaction loop of `bam_sanitize`: walk the entries in
stream order, copying each retained entry to the write cursor `to`. -/
def auxFilterLoop : List AuxEntry → List AuxEntry → List AuxEntry
  | [], to_ => to_
  | e :: rest, to_ =>
    auxFilterLoop rest (if keepAux e then to_ ++ [e] else to_)

/-- `clear_cigar`: completely delete the CIGAR field. -/
def clearCigar (b : Rec1) : Rec1 := { b with cigar := [] }

/-- Byte length of one aux entry (2 key bytes + body). -/
def entryBytes (e : AuxEntry) : Nat := 2 + e.body.length

/-- Byte length of an aux stream. -/
def auxBytesLen (l : List AuxEntry) : Nat := (l.map entryBytes).sum

/-- First section of `bam_sanitize`: `FIX_POS` — RNAME * forces pos 0
(and, with `FIX_UNMAP`, the unmapped flag). -/
def sanStep1 (f : FixFlags) (b0 : Rec1) : Rec1 :=
  if f.pos ∧ b0.tid < 0 then
    let b := { b0 with pos := -1 }
    if f.unmap then { b with flag := { b.flag with unmap := true } } else b
  else b0

/-- Second section of `bam_sanitize`: `FIX_CIGAR` on a mapped record —
mapped-to-unmapped correction against the reference length, or the
CIGAR trim. -/
def sanStep2 (hdr : Int → Int) (f : FixFlags) (b1 : Rec1) : Option Rec1 :=
  if f.cigar ∧ ¬b1.flag.unmap then
    if b1.pos < 0 ∧ f.unmap then
      some { b1 with flag := { b1.flag with unmap := true } }
    else
      let rlen := hdr b1.tid
      if b1.pos ≥ rlen ∧ f.unmap then
        let b := { b1 with flag := { b1.flag with unmap := true } }
        some (if f.pos then { b with tid := -1, pos := -1 } else b)
      else if bamEndpos b1 > rlen then bamTrim b1 rlen
      else some b1
  else some b1

/-- Third section of `bam_sanitize`: unmapped-record corrections —
CIGAR deletion, mapping quality 0, aux-tag compaction. -/
def sanStep3 (f : FixFlags) (b2 : Rec1) : Rec1 :=
  if b2.flag.unmap then
    let b3 := if f.cigar ∧ b2.cigar ≠ [] then clearCigar b2 else b2
    let b4 := if f.mqual then { b3 with qual := 0 } else b3
    if f.aux then { b4 with aux := auxFilterLoop b4.aux [] } else b4
  else b2

/-- `bam_sanitize(h, b, flags)` with the header abstracted to the
reference-length lookup `hdr` (`sam_hdr_tid2len`): the three sections
in source order.  `none` models the error return. -/
def bamSanitize (hdr : Int → Int) (b0 : Rec1) (f : FixFlags) : Option Rec1 :=
  (sanStep2 hdr f (sanStep1 f b0)).map (sanStep3 f)

/-- `sync_unmapped_pos_inner(src, dest)`: if `dest` is unmapped and
`src` is mapped, copy `src`'s RNAME and POS to `dest`. -/
def syncUnmappedPosInner (src dest : Rec1) : Rec1 :=
  if dest.flag.unmap ∧ ¬src.flag.unmap then
    { dest with tid := src.tid, pos := src.pos }
  else dest

/-- `sync_mate_inner(src, dest)`: copy `src`'s tid/pos into `dest`'s
mate tid/pos; mirror the reverse flag into mate-reverse; set (never
clear) mate-unmapped when `src` is unmapped. -/
def syncMateInner (src dest : Rec1) : Rec1 :=
  let d := { dest with mtid := src.tid, mpos := src.pos }
  let fl :=
    if src.flag.reverse then { d.flag with mreverse := true }
    else { d.flag with mreverse := false }
  let fl := if src.flag.unmap then { fl with munmap := true } else fl
  { d with flag := fl }

/-- `bam_cigar_opchr`: character of a CIGAR op ("MIDNSHP=XB"). -/
def opChr (op : Nat) : Char :=
  match op with
  | 0 => 'M' | 1 => 'I' | 2 => 'D' | 3 => 'N' | 4 => 'S'
  | 5 => 'H' | 6 => 'P' | 7 => '=' | 8 => 'X' | 9 => 'B'
  | _ => '?'

/-- Characters of a CIGAR written as `kputw(oplen); kputc(opchr)` per
operation. -/
def cigarChars (cigar : List (Nat × Nat)) : List Char :=
  cigar.foldl (fun acc lo => acc ++ (Nat.repr lo.1).toList ++ [opChr lo.2]) []

/-- `bam_format_cigar`: an empty CIGAR formats as "*". -/
def bamFormatCigar (b : Rec1) : List Char :=
  if b.cigar = [] then ['*'] else cigarChars b.cigar

/-- Bytes of a character string. -/
def strBytes (s : List Char) : List Nat := s.map Char.toNat

/-- `bam_aux_get` + `bam_aux_del` of the first entry keyed
`(k0, k1)`: remove it if present, otherwise leave the stream alone. -/
def removeFirstAux (k0 k1 : Nat) : List AuxEntry → List AuxEntry
  | [] => []
  | e :: rest =>
    if e.k0 = k0 ∧ e.k1 = k1 then rest else e :: removeFirstAux k0 k1 rest

/-- Little-endian bytes of a `uint32_t` value. -/
def le4 (n : Nat) : List Nat :=
  [n % 256, n / 256 % 256, n / 65536 % 256, n / 16777216 % 256]

/-- `sync_mq_mc(src, dest)`: if `src` is mapped, replace `dest`'s "MQ"
integer tag with `src`'s mapping quality; if either is mapped, replace
`dest`'s "MC" string tag with `src`'s formatted CIGAR. -/
def syncMqMc (src dest : Rec1) : Rec1 :=
  let d1 :=
    if ¬src.flag.unmap then
      { dest with aux := removeFirstAux 'M'.toNat 'Q'.toNat dest.aux ++
          [⟨'M'.toNat, 'Q'.toNat, 'i'.toNat :: le4 src.qual⟩] }
    else dest
  if ¬src.flag.unmap ∨ ¬d1.flag.unmap then
    { d1 with aux := removeFirstAux 'M'.toNat 'C'.toNat d1.aux ++
        [⟨'M'.toNat, 'C'.toNat,
          'Z'.toNat :: strBytes (bamFormatCigar src) ++ [0]⟩] }
  else d1

/-- `sync_mate(a, b)`: the six inner calls, threaded sequentially in
source order. -/
def syncMate (a b : Rec1) : Rec1 × Rec1 :=
  let b1 := syncUnmappedPosInner a b
  let a1 := syncUnmappedPosInner b1 a
  let b2 := syncMateInner a1 b1
  let a2 := syncMateInner b2 a1
  let b3 := syncMqMc a2 b2
  let a3 := syncMqMc b3 a2
  (a3, b3)

/-- `calc_mate_score`: sum of per-base qualities at least
`MD_MIN_QUALITY` (15). -/
def calcMateScore (b : Rec1) : Nat :=
  b.qseq.foldl (fun s q => if q ≥ 15 then s + q else s) 0

/-- `add_mate_score(src, dest)`: replace `dest`'s "ms" integer tag with
`src`'s mate score. -/
def addMateScore (src dest : Rec1) : Rec1 :=
  { dest with aux := removeFirstAux 'm'.toNat 's'.toNat dest.aux ++
      [⟨'m'.toNat, 's'.toNat, 'i'.toNat :: le4 (calcMateScore src)⟩] }

/-- `plausibly_properly_paired`: both mapped, same reference, and in FR
orientation by 5-prime coordinate. -/
def plausiblyProperlyPaired (a b : Rec1) : Bool :=
  if a.flag.unmap ∨ b.flag.unmap then false
  else if a.tid ≠ b.tid then false
  else
    let aPos := if a.flag.reverse then bamEndpos a else a.pos
    let bPos := if b.flag.reverse then bamEndpos b else b.pos
    let fs := if aPos > bPos then (b, a) else (a, b)
    ¬fs.1.flag.reverse ∧ fs.2.flag.reverse

/-- The "ct" descriptor string built by `bam_template_cigar` for the
ordered pair (lower position first). -/
def templateCigarStr (b1 b2 : Rec1) : List Char :=
  [(if b1.flag.read1 then '1' else '2'),
   (if b1.flag.reverse then 'R' else 'F')]
  ++ cigarChars b1.cigar
  ++ (Int.repr (b2.pos - bamEndpos b1)).toList ++ ['T']
  ++ [(if b2.flag.read1 then '1' else '2'),
      (if b2.flag.reverse then 'R' else 'F')]
  ++ cigarChars b2.cigar

/-- `bam_template_cigar(b1, b2, str)`: skip if coordinateless or on
different references; otherwise order by position, delete any prior
"ct" on both, and append the descriptor to the lower-position read. -/
def bamTemplateCigar (b1 b2 : Rec1) : Rec1 × Rec1 :=
  if b1.tid ≠ b2.tid ∨ b1.tid < 0 ∨ b1.pos < 0 ∨ b2.pos < 0 ∨
     b1.flag.unmap ∨ b2.flag.unmap then (b1, b2)
  else
    let swapped := b1.pos > b2.pos
    let x := if swapped then b2 else b1
    let y := if swapped then b1 else b2
    let str := templateCigarStr x y
    let x1 := { x with aux := removeFirstAux 'c'.toNat 't'.toNat x.aux }
    let y1 := { y with aux := removeFirstAux 'c'.toNat 't'.toNat y.aux }
    let x2 := { x1 with aux := x1.aux ++
        [⟨'c'.toNat, 't'.toNat, 'Z'.toNat :: strBytes str ++ [0]⟩] }
    if swapped then (y1, x2) else (x2, y1)

/-- Configuration booleans of `bam_mating_core`. -/
structure MateCfg where
  removeReads : Bool
  properPairCheck : Bool
  addCt : Bool
  doMateScoring : Bool
deriving Repr, DecidableEq, Inhabited

/-- Clear `BAM_FPAIRED | BAM_FMREVERSE | BAM_FPROPER_PAIR`. -/
def clearBadFlags (r : Rec1) : Rec1 :=
  { r with flag := { r.flag with
      paired := false, mreverse := false, proper := false } }

/-- First part of the pair body: set `BAM_FPAIRED` on both records,
then `sync_mate(pre, cur)`. -/
def pairSync (pre cur : Rec1) : Rec1 × Rec1 :=
  syncMate { pre with flag := { pre.flag with paired := true } }
           { cur with flag := { cur.flag with paired := true } }

/-- "If safe set TLEN/ISIZE": both post-sync records on the same
reference with neither unmapped nor mate-unmapped flags — insert sizes
from the 5-prime coordinates; otherwise both 0. -/
def pairIsize (pc : Rec1 × Rec1) (preEnd curEnd : Int) : Rec1 × Rec1 :=
  let safe := pc.1.tid = pc.2.tid ∧
    ¬(pc.2.flag.unmap ∨ pc.2.flag.munmap) ∧
    ¬(pc.1.flag.unmap ∨ pc.1.flag.munmap)
  let cur5 := if pc.2.flag.reverse then curEnd else pc.2.pos
  let pre5 := if pc.1.flag.reverse then preEnd else pc.1.pos
  (if safe then { pc.1 with isize := cur5 - pre5 }
   else { pc.1 with isize := 0 },
   if safe then { pc.2 with isize := pre5 - cur5 }
   else { pc.2 with isize := 0 })

/-- Optional `bam_template_cigar(pre, cur, &str)`. -/
def pairCt (cfg : MateCfg) (pc : Rec1 × Rec1) : Rec1 × Rec1 :=
  if cfg.addCt then bamTemplateCigar pc.1 pc.2 else pc

/-- Optional proper-pair plausibility check: clear the flag on both if
implausible. -/
def pairProperCheck (cfg : MateCfg) (pc : Rec1 × Rec1) : Rec1 × Rec1 :=
  if cfg.properPairCheck ∧ ¬plausiblyProperlyPaired pc.1 pc.2 then
    ({ pc.1 with flag := { pc.1.flag with proper := false } },
     { pc.2 with flag := { pc.2.flag with proper := false } })
  else pc

/-- Optional mate scoring: `add_mate_score(pre, cur)` then
`add_mate_score(cur, pre)`. -/
def pairMateScore (cfg : MateCfg) (pc : Rec1 × Rec1) : Rec1 × Rec1 :=
  if cfg.doMateScoring then
    let cur6 := addMateScore pc.1 pc.2
    (addMateScore cur6 pc.1, cur6)
  else pc

/-- Removal-policy orphan fixup: clear paired/mate-reverse/proper-pair
on one mate when the other is unmapped. -/
def pairRemoveFix (cfg : MateCfg) (pc : Rec1 × Rec1) : Rec1 × Rec1 :=
  if cfg.removeReads then
    let cur7 := if pc.1.flag.unmap then clearBadFlags pc.2 else pc.2
    let pre7 := if cur7.flag.unmap then clearBadFlags pc.1 else pc.1
    (pre7, cur7)
  else pc

/-- The pre/cur pair body of the primary-fixup loop in
`bam_mating_core`: set the paired flags, `sync_mate`, insert-size
computation, optional "ct" tag, proper-pair plausibility check, mate
scoring, and removal-policy orphan fixup, in source order. -/
def pairStep (cfg : MateCfg) (pre cur : Rec1) (preEnd curEnd : Int) :
    Rec1 × Rec1 :=
  pairRemoveFix cfg (pairMateScore cfg (pairProperCheck cfg
    (pairCt cfg (pairIsize (pairSync pre cur) preEnd curEnd))))

/-- A record is a primary alignment: neither secondary nor
supplementary. -/
def isPrimary (r : Rec1) : Bool := ¬(r.flag.secondary ∨ r.flag.supp)

/-- Loop state of the primary-fixup scan: the record array and the
`pre`/`prev`, `cur`/`curr` selections with their cached end
positions. -/
structure ScanState where
  recs : List Rec1
  pre : Option Nat
  cur : Option Nat
  preEnd : Int
  curEnd : Int
deriving Repr, Inhabited

/-- Body of one iteration of the primary-fixup loop at index `n`,
with `r` the record fetched at that index. -/
def scanStepR (cfg : MateCfg) (st : ScanState) (n : Nat) (r : Rec1) : ScanState :=
  if r.flag.secondary ∨ r.flag.supp then st
  else
    match st.pre with
    | none =>
      { st with
        pre := some n
        preEnd := if ¬r.flag.unmap then bamEndpos r else 0 }
    | some p =>
      let curEnd := if ¬r.flag.unmap then bamEndpos r else 0
      let preR := st.recs.getD p default
      let pc := pairStep cfg preR r st.preEnd curEnd
      { st with
        recs := (st.recs.set p pc.1).set n pc.2
        cur := some n
        curEnd := curEnd }

/-- One iteration of the primary-fixup loop at index `n`. -/
def scanStep (cfg : MateCfg) (st : ScanState) (n : Nat) : ScanState :=
  scanStepR cfg st n (st.recs.getD n default)

/-- The `for (n = 0; n < bs.n; n++)` loop, by remaining-count
recursion. -/
def scanGo (cfg : MateCfg) (st : ScanState) : Nat → Nat → ScanState
  | _, 0 => st
  | n, fuel + 1 => scanGo cfg (scanStep cfg st n) (n + 1) fuel

/-- The unpaired-primary cleanup applied when no `cur` was selected. -/
def cleanupUnpaired (r : Rec1) : Rec1 :=
  { r with
    mtid := -1
    mpos := -1
    isize := 0
    flag := { r.flag with
      paired := false, mreverse := false, proper := false } }

/-- The per-template fixup phase of `bam_mating_core` (the primary
scan followed by the unpaired-primary cleanup).  `none` models the
dereference of the null `pre` pointer when the template has no primary
record at all (`if (!cur) { pre->... }` with `pre == NULL`). -/
def matingFixups (cfg : MateCfg) (recs : List Rec1) : Option (List Rec1) :=
  let st := scanGo cfg ⟨recs, none, none, 0, 0⟩ 0 recs.length
  match st.cur with
  | some _ => some st.recs
  | none =>
    match st.pre with
    | none => none
    | some p =>
      some (st.recs.set p (cleanupUnpaired (st.recs.getD p default)))

/-- `bam_set`: the batch-reader state (`b`, `n`, `b_next`, `eof`). -/
structure BamSet where
  b : List Rec1
  n : Nat
  bNext : Int
  eof : Bool
deriving Repr, DecidableEq, Inhabited

/-- Write slot `k` of the record array, growing it as `grow_b_array`
would. -/
def setSlot (l : List Rec1) (k : Nat) (r : Rec1) : List Rec1 :=
  (l ++ List.replicate (k + 1 - l.length) default).set k r

/-- The read loop of `next_template`: read into slot `bs.n`, sanitize
slot 0 (as the source does), then either stop at end of stream
(mark eof, no carry-over), stop at a name mismatch (record the
carry-over slot), or append to the group and continue. -/
def ntLoop (hdr : Int → Int) (f : FixFlags) (name : String) :
    List Rec1 → BamSet → Option (BamSet × List Rec1)
  | [], bs =>
    match bamSanitize hdr (bs.b.getD 0 default) f with
    | none => none
    | some b0 =>
      some ({ bs with b := bs.b.set 0 b0, eof := true, bNext := -1 }, [])
  | r :: rest, bs =>
    let bArr := setSlot bs.b bs.n r
    match bamSanitize hdr (bArr.getD 0 default) f with
    | none => none
    | some b0 =>
      let bArr2 := bArr.set 0 b0
      let bs1 := { bs with b := bArr2, bNext := (bs.n : Int) }
      if r.qname = name then
        ntLoop hdr f name rest { bs1 with n := bs.n + 1 }
      else some (bs1, rest)

/-- `next_template(in, header, bs, sanitize_flags)` over a modelled
input stream: returns the `sam_read1`-style result code, the updated
batch state and the remaining stream; `none` models the internal
failure return (-2). -/
def nextTemplate (hdr : Int → Int) (f : FixFlags) (bs : BamSet)
    (stream : List Rec1) : Option (Int × BamSet × List Rec1) :=
  if bs.eof then some (-1, bs, stream)
  else if bs.bNext < 0 then
    match stream with
    | [] => some (-1, bs, stream)
    | r :: rest =>
      match bamSanitize hdr r f with
      | none => none
      | some r' =>
        let bs1 : BamSet := { bs with b := setSlot bs.b 0 r', n := 1 }
        match ntLoop hdr f (bs1.b.getD 0 default).qname rest bs1 with
        | none => none
        | some (bs2, st2) => some ((bs2.n : Int), bs2, st2)
  else
    let j := bs.bNext.toNat
    let b0 := bs.b.getD 0 default
    let bj := bs.b.getD j default
    let bs1 : BamSet := { bs with b := (bs.b.set 0 bj).set j b0, n := 1 }
    match ntLoop hdr f (bs1.b.getD 0 default).qname stream bs1 with
    | none => none
    | some (bs2, st2) => some ((bs2.n : Int), bs2, st2)

/-! ### Helper lemmas -/

theorem auxFilterLoop_eq_filter (l acc : List AuxEntry) :
    auxFilterLoop l acc = acc ++ l.filter keepAux := by
  induction l generalizing acc with
  | nil => simp [auxFilterLoop]
  | cons e rest ih =>
    by_cases h : keepAux e
    · simp [auxFilterLoop, h, ih]
    · simp [auxFilterLoop, h, ih]

theorem auxBytesLen_filter_add (l : List AuxEntry) :
    auxBytesLen (l.filter keepAux) +
      auxBytesLen (l.filter (fun e => !keepAux e)) = auxBytesLen l := by
  induction l with
  | nil => simp [auxBytesLen]
  | cons e rest ih =>
    by_cases h : keepAux e
    · simp only [List.filter_cons, h, Bool.not_true, if_pos, if_neg]
      simp [auxBytesLen, h] at ih ⊢
      omega
    · simp only [List.filter_cons]
      simp [auxBytesLen, h] at ih ⊢
      omega

theorem removeFirstAux_filter (p : AuxEntry → Bool) (k0 k1 : Nat)
    (hp : ∀ e : AuxEntry, e.k0 = k0 → e.k1 = k1 → p e = false) :
    ∀ l : List AuxEntry, (removeFirstAux k0 k1 l).filter p = l.filter p := by
  intro l
  induction l with
  | nil => simp [removeFirstAux]
  | cons e rest ih =>
    by_cases h : e.k0 = k0 ∧ e.k1 = k1
    · have := hp e h.1 h.2
      simp [removeFirstAux, h, List.filter_cons, this]
    · simp [removeFirstAux, h, List.filter_cons, ih]

/-! ### C6: sanitizing a fully valid in-bounds mapped record is a no-op -/

/-- C6: for every mapped record with a set reference id, a
non-negative position strictly below the reference length, and an
alignment end not exceeding the reference length, `bam_sanitize` with
all fix categories enabled returns the record unchanged. -/
theorem C6_sanitize_noop (hdr : Int → Int) (r : Rec1)
    (hu : r.flag.unmap = false) (ht : 0 ≤ r.tid) (hp : 0 ≤ r.pos)
    (hlt : r.pos < hdr r.tid) (he : bamEndpos r ≤ hdr r.tid) :
    bamSanitize hdr r fixAll = some r := by
  simp [bamSanitize, sanStep1, sanStep2, sanStep3, fixAll, hu,
        not_lt.mpr ht, not_lt.mpr hp, not_le.mpr hlt, not_lt.mpr he]

/-- All flag bits clear. -/
def flagsClear : Flags := ⟨false, false, false, false, false, false, false, false, false⟩

/-- A clean mapped 10M record at position 0 of reference 0. -/
def exClean : Rec1 := ⟨"q", flagsClear, 0, 0, 30, -1, -1, 0, [(10, 0)], [], []⟩

/-- Witness for C6 at a concrete record. -/
theorem C6_sanitize_noop_witness :
    bamSanitize (fun _ => 100) exClean fixAll = some exClean :=
  C6_sanitize_noop _ _ rfl (by decide) (by decide) (by decide) (by decide)

/-! ### C5: the aux compaction pass removes exactly NM/MD/CG/SM -/

theorem sanStep1_aux (f : FixFlags) (b : Rec1) :
    (sanStep1 f b).aux = b.aux := by
  unfold sanStep1
  split
  · split <;> rfl
  · rfl

theorem sanStep1_unmap_true (f : FixFlags) (b : Rec1)
    (hu : b.flag.unmap = true) : (sanStep1 f b).flag.unmap = true := by
  unfold sanStep1
  split
  · split <;> simp [hu]
  · exact hu

theorem sanStep2_of_unmapped (hdr : Int → Int) (f : FixFlags) (b : Rec1)
    (hu : b.flag.unmap = true) : sanStep2 hdr f b = some b := by
  simp [sanStep2, hu]

theorem sanStep3_aux_of_unmapped (f : FixFlags) (b : Rec1)
    (hu : b.flag.unmap = true) (ha : f.aux = true) :
    (sanStep3 f b).aux = b.aux.filter keepAux := by
  unfold sanStep3
  rw [if_pos hu, if_pos ha]
  have hq : (if f.mqual then { (if f.cigar ∧ b.cigar ≠ [] then clearCigar b else b) with qual := 0 }
      else (if f.cigar ∧ b.cigar ≠ [] then clearCigar b else b)).aux = b.aux := by
    split <;> split <;> simp [clearCigar]
  simp only [hq, auxFilterLoop_eq_filter, List.nil_append]

/-- C5: for every unmapped record sanitized with auxiliary-tag fixing
enabled, the compaction pass keeps exactly the entries whose key is
none of "NM", "MD", "CG", "SM", preserving their byte content and
relative order, and the byte length of the aux region afterwards is
the original byte length minus the total byte length of the removed
entries. -/
theorem C5_aux_filter (hdr : Int → Int) (r r' : Rec1) (f : FixFlags)
    (ha : f.aux = true) (hu : r.flag.unmap = true)
    (h : bamSanitize hdr r f = some r') :
    r'.aux = r.aux.filter keepAux ∧
    auxBytesLen r'.aux =
      auxBytesLen r.aux - auxBytesLen (r.aux.filter (fun e => !keepAux e)) := by
  have h1u := sanStep1_unmap_true f r hu
  have h1a := sanStep1_aux f r
  unfold bamSanitize at h
  rw [sanStep2_of_unmapped hdr f _ h1u] at h
  simp only [Option.map_some', Option.some.injEq] at h
  have hx : r'.aux = r.aux.filter keepAux := by
    rw [← h, sanStep3_aux_of_unmapped f _ h1u ha, h1a]
  refine ⟨hx, ?_⟩
  rw [hx, ← auxBytesLen_filter_add r.aux]
  omega

/-- An unmapped record carrying NM, XY, MD, AB aux tags. -/
def exUnAux : Rec1 :=
  ⟨"q", { flagsClear with unmap := true }, 0, 0, 30, -1, -1, 0, [], [],
   [⟨'N'.toNat, 'M'.toNat, [105, 1, 0, 0, 0]⟩, ⟨'X'.toNat, 'Y'.toNat, [65, 1]⟩,
    ⟨'M'.toNat, 'D'.toNat, [90, 49, 0]⟩, ⟨'A'.toNat, 'B'.toNat, [65, 2]⟩]⟩

/-- The sanitized form of `exUnAux`: NM and MD removed, quality 0. -/
def exUnAuxSan : Rec1 :=
  ⟨"q", { flagsClear with unmap := true }, 0, 0, 0, -1, -1, 0, [], [],
   [⟨'X'.toNat, 'Y'.toNat, [65, 1]⟩, ⟨'A'.toNat, 'B'.toNat, [65, 2]⟩]⟩

/-- Witness for C5 at a concrete unmapped record. -/
theorem C5_aux_filter_witness :
    exUnAuxSan.aux = exUnAux.aux.filter keepAux ∧
    auxBytesLen exUnAuxSan.aux =
      auxBytesLen exUnAux.aux -
        auxBytesLen (exUnAux.aux.filter (fun e => !keepAux e)) :=
  C5_aux_filter (fun _ => 100) exUnAux exUnAuxSan fixAll rfl rfl (by decide)

/-! ### C10: MQ mirroring leaves the tag alone when the source is unmapped -/

/-- An aux entry is keyed "MQ". -/
def isMQ (e : AuxEntry) : Bool := e.k0 = 'M'.toNat ∧ e.k1 = 'Q'.toNat

/-- C10: if the source record is unmapped, `sync_mq_mc` leaves the
destination's "MQ"-keyed aux entries exactly as they were (the
delete-then-append of MQ happens only for a mapped source). -/
theorem C10_mq_preserved (src dest : Rec1) (hu : src.flag.unmap = true) :
    (syncMqMc src dest).aux.filter isMQ = dest.aux.filter isMQ := by
  have hmc : ∀ e : AuxEntry, e.k0 = 77 → e.k1 = 67 → isMQ e = false := by
    intro e h1 h2
    simp [isMQ, h1, h2]
  by_cases hd : dest.flag.unmap = true
  · simp [syncMqMc, hu, hd]
  · simp [syncMqMc, hu, hd, List.filter_append, isMQ,
          removeFirstAux_filter isMQ 77 67 hmc]

/-- A mapped destination carrying an MQ tag (value 7) and an XY tag. -/
def exDestMQ : Rec1 :=
  ⟨"q", flagsClear, 0, 0, 30, -1, -1, 0, [(10, 0)], [],
   [⟨'M'.toNat, 'Q'.toNat, [105, 7, 0, 0, 0]⟩, ⟨'X'.toNat, 'Y'.toNat, [65, 1]⟩]⟩

/-- An unmapped source record. -/
def exSrcUnmapped : Rec1 :=
  ⟨"q", { flagsClear with unmap := true }, 0, 0, 30, -1, -1, 0, [], [], []⟩

/-- Witness for C10 at a concrete unmapped source. -/
theorem C10_mq_preserved_witness :
    (syncMqMc exSrcUnmapped exDestMQ).aux.filter isMQ =
      exDestMQ.aux.filter isMQ :=
  C10_mq_preserved exSrcUnmapped exDestMQ rfl

/-! ### C2: the cutoff-on-boundary case of the CIGAR trim -/

/-- A mapped 70M30M record at position 0: the second operation starts
exactly at reference position 70. -/
def exBoundary : Rec1 :=
  ⟨"q", flagsClear, 0, 0, 30, -1, -1, 0, [(70, 0), (30, 0)], [], []⟩

/-- C2 (code evaluation): trimming a 70M30M record at position 0 to
cutoff 70 — where the triggering operation starts exactly at the
cutoff — marks the record unmapped with CIGAR 70M, instead of turning
the whole operation into a soft clip (70M30S) and leaving it mapped as
the specification states; the `pos > end` test makes the
op-starts-on-the-junction branch unreachable. -/
theorem C2_trim_boundary_eval :
    (bamTrim exBoundary 70).map
        (fun b => (b.cigar, b.flag.unmap, b.flag.proper)) =
      some ([(70, 0)], true, false) := by
  decide

/-! ### C4: trim of an overhanging alignment / start beyond the cutoff -/

/-- A mapped 100M record at position 0. -/
def exHundredM : Rec1 :=
  ⟨"q", flagsClear, 0, 0, 30, -1, -1, 0, [(100, 0)], [], []⟩

/-- A mapped record whose alignment start (100) lies beyond cutoff 70
but whose CIGAR is a lone soft clip (consumes no reference). -/
def exSoftOnly : Rec1 :=
  ⟨"q", { flagsClear with proper := true }, 0, 100, 30, -1, -1, 0,
   [(5, 4)], [], []⟩

/-- C4 counterexample: a mapped record whose alignment start lies
beyond the trim cutoff but whose CIGAR contains no reference-consuming
operation is returned by `bam_trim` unchanged — the unmapped flag is
not set and the proper-pair flag is not cleared, contradicting the
claim's universal second part. -/
theorem C4_trim_counterexample :
    exSoftOnly.pos > 70 ∧ exSoftOnly.flag.unmap = false ∧
    bamTrim exSoftOnly 70 = some exSoftOnly ∧
    exSoftOnly.flag.proper = true := by
  decide

theorem trimWalk_pos_gt (end_ : Int) :
    ∀ (l : List (Nat × Nat)) (pos : Int) (i : Nat), pos > end_ →
      (∃ lo ∈ l, consumesRef lo.2) →
      ∃ (j : Nat) (op : Nat) (len : Nat),
        trimWalk end_ l pos i = some (j, pos + (len : Int), op, len) := by
  intro l
  induction l with
  | nil =>
    intro pos i _ hr
    obtain ⟨lo, hm, _⟩ := hr
    exact absurd hm (List.not_mem_nil lo)
  | cons hd tl ih =>
    intro pos i hp hr
    by_cases hc : consumesRef hd.2
    · refine ⟨i, hd.2, hd.1, ?_⟩
      have hgt : pos + (hd.1 : Int) > end_ := by
        have : (0 : Int) ≤ (hd.1 : Int) := Int.ofNat_nonneg hd.1
        omega
      simp [trimWalk, hc, hgt]
    · have hr' : ∃ lo ∈ tl, consumesRef lo.2 := by
        obtain ⟨lo, hm, hlo⟩ := hr
        rcases List.mem_cons.mp hm with h | h
        · exact absurd (h ▸ hlo) (by simpa using hc)
        · exact ⟨lo, h, hlo⟩
      obtain ⟨j, op, len, hw⟩ := ih pos (i + 1) hp hr'
      exact ⟨j, op, len, by simp [trimWalk, hc, hw]⟩

/-- C4 (amended): (1) sanitizing a mapped 100M record at position 0
against a reference of length 70 with all fixes enabled trims the
CIGAR to 70M30S and leaves the unmapped flag clear; (2) for every
record whose alignment start lies beyond the trim cutoff and whose
CIGAR contains at least one reference-consuming operation, a completed
`bam_trim` sets the unmapped flag and clears the proper-pair flag. -/
theorem C4_trim_amended :
    ((bamSanitize (fun _ => 70) exHundredM fixAll).map
        (fun b => (b.cigar, b.flag.unmap)) = some ([(70, 0), (30, 4)], false)) ∧
    (∀ (b : Rec1) (e : Int) (b' : Rec1), b.pos > e →
      (∃ lo ∈ b.cigar, consumesRef lo.2) →
      bamTrim b e = some b' →
      b'.flag.unmap = true ∧ b'.flag.proper = false) := by
  refine ⟨by decide, ?_⟩
  intro b e b' hpos href h
  obtain ⟨j, op, len, hw⟩ := trimWalk_pos_gt e b.cigar b.pos 0 hpos href
  unfold bamTrim at h
  rw [hw] at h
  dsimp only at h
  have h1 : ¬(b.pos + (len : Int) - (len : Int) < e) := by omega
  have h2 : b.pos + (len : Int) > e := by
    have : (0 : Int) ≤ (len : Int) := Int.ofNat_nonneg len
    omega
  rw [if_neg h1, if_pos h2] at h
  cases habs : absorbTail (b.cigar.drop (j + 1)) [] with
  | none => rw [habs] at h; exact absurd h (by simp)
  | some nc =>
    rw [habs] at h
    simp only [Option.some.injEq] at h
    subst h
    exact ⟨rfl, rfl⟩

/-- A mapped 4M record at position 7 (start beyond cutoff 3). -/
def exBeyond : Rec1 :=
  ⟨"q", { flagsClear with proper := true }, 0, 7, 30, -1, -1, 0,
   [(4, 0)], [], []⟩

/-- `bam_trim exBeyond 3`: unmapped, proper-pair cleared, CIGAR
emptied. -/
def exBeyondOut : Rec1 :=
  ⟨"q", { flagsClear with unmap := true }, 0, 7, 30, -1, -1, 0,
   [], [], []⟩

/-- Witness for C4 (amended) at a concrete record. -/
theorem C4_trim_amended_witness :
    exBeyondOut.flag.unmap = true ∧ exBeyondOut.flag.proper = false :=
  C4_trim_amended.2 exBeyond 3 exBeyondOut (by decide)
    ⟨(4, 0), by decide, by decide⟩ (by decide)

/-! ### Characterization lemmas for the mate synchronizer -/

theorem syncUnmappedPosInner_flag (s d : Rec1) :
    (syncUnmappedPosInner s d).flag = d.flag := by
  unfold syncUnmappedPosInner
  split <;> rfl

theorem syncMateInner_flag (s d : Rec1) :
    (syncMateInner s d).flag =
      { d.flag with
        mreverse := s.flag.reverse
        munmap := if s.flag.unmap then true else d.flag.munmap } := by
  cases hr : s.flag.reverse <;> cases hu : s.flag.unmap <;>
    simp [syncMateInner, hr, hu]

theorem syncMateInner_tid (s d : Rec1) : (syncMateInner s d).tid = d.tid := by
  unfold syncMateInner
  dsimp only

theorem syncMateInner_pos (s d : Rec1) : (syncMateInner s d).pos = d.pos := by
  unfold syncMateInner
  dsimp only

theorem syncMqMc_eq (s d : Rec1) :
    syncMqMc s d = { d with aux := (syncMqMc s d).aux } := by
  cases hs : s.flag.unmap <;> cases hd : d.flag.unmap <;>
    simp [syncMqMc, hs, hd]

theorem syncMqMc_flag (s d : Rec1) : (syncMqMc s d).flag = d.flag := by
  conv_lhs => rw [syncMqMc_eq]

theorem syncMqMc_tid (s d : Rec1) : (syncMqMc s d).tid = d.tid := by
  conv_lhs => rw [syncMqMc_eq]

theorem syncMqMc_pos (s d : Rec1) : (syncMqMc s d).pos = d.pos := by
  conv_lhs => rw [syncMqMc_eq]

theorem syncMqMc_isize (s d : Rec1) : (syncMqMc s d).isize = d.isize := by
  conv_lhs => rw [syncMqMc_eq]

theorem syncMate_fst_flag (a b : Rec1) :
    (syncMate a b).1.flag =
      { a.flag with
        mreverse := b.flag.reverse
        munmap := if b.flag.unmap then true else a.flag.munmap } := by
  cases ha : a.flag.unmap <;> cases hb : b.flag.unmap <;>
    simp [syncMate, syncMqMc_flag, syncMateInner_flag,
          syncUnmappedPosInner, syncUnmappedPosInner_flag, ha, hb]

theorem syncMate_snd_flag (a b : Rec1) :
    (syncMate a b).2.flag =
      { b.flag with
        mreverse := a.flag.reverse
        munmap := if a.flag.unmap then true else b.flag.munmap } := by
  cases ha : a.flag.unmap <;> cases hb : b.flag.unmap <;>
    simp [syncMate, syncMqMc_flag, syncMateInner_flag,
          syncUnmappedPosInner, syncUnmappedPosInner_flag, ha, hb]

theorem syncMate_fst_tid (a b : Rec1) :
    (syncMate a b).1.tid =
      if a.flag.unmap ∧ ¬b.flag.unmap then b.tid else a.tid := by
  cases ha : a.flag.unmap <;> cases hb : b.flag.unmap <;>
    simp [syncMate, syncMqMc_tid, syncMateInner_tid, syncMateInner_flag,
          syncUnmappedPosInner, syncUnmappedPosInner_flag, ha, hb]

theorem syncMate_fst_pos (a b : Rec1) :
    (syncMate a b).1.pos =
      if a.flag.unmap ∧ ¬b.flag.unmap then b.pos else a.pos := by
  cases ha : a.flag.unmap <;> cases hb : b.flag.unmap <;>
    simp [syncMate, syncMqMc_pos, syncMateInner_pos, syncMateInner_flag,
          syncUnmappedPosInner, syncUnmappedPosInner_flag, ha, hb]

theorem syncMate_snd_tid (a b : Rec1) :
    (syncMate a b).2.tid =
      if b.flag.unmap ∧ ¬a.flag.unmap then a.tid else b.tid := by
  cases ha : a.flag.unmap <;> cases hb : b.flag.unmap <;>
    simp [syncMate, syncMqMc_tid, syncMateInner_tid, syncMateInner_flag,
          syncUnmappedPosInner, syncUnmappedPosInner_flag, ha, hb]

theorem syncMate_snd_pos (a b : Rec1) :
    (syncMate a b).2.pos =
      if b.flag.unmap ∧ ¬a.flag.unmap then a.pos else b.pos := by
  cases ha : a.flag.unmap <;> cases hb : b.flag.unmap <;>
    simp [syncMate, syncMqMc_pos, syncMateInner_pos, syncMateInner_flag,
          syncUnmappedPosInner, syncUnmappedPosInner_flag, ha, hb]

theorem bamTemplateCigar_fst_isize (a b : Rec1) :
    (bamTemplateCigar a b).1.isize = a.isize := by
  unfold bamTemplateCigar
  split
  · rfl
  · dsimp only
    split <;> rfl

theorem bamTemplateCigar_snd_isize (a b : Rec1) :
    (bamTemplateCigar a b).2.isize = b.isize := by
  unfold bamTemplateCigar
  split
  · rfl
  · dsimp only
    split <;> rfl

theorem addMateScore_isize (s d : Rec1) :
    (addMateScore s d).isize = d.isize := rfl

theorem clearBadFlags_isize (r : Rec1) : (clearBadFlags r).isize = r.isize := rfl

/-- The 5-prime reference coordinate of a record: alignment start for
a forward-strand record, alignment end for a reverse-strand one. -/
def fivePrime (r : Rec1) : Int :=
  if r.flag.reverse then bamEndpos r else r.pos

/-! ### C3: insert-size computation of the primary-pair step -/

/-- A mapped forward 50M record at position 100 of reference 0 whose
mate-unmapped flag is (stale) set. -/
def exPreStale : Rec1 :=
  ⟨"q", { flagsClear with munmap := true }, 0, 100, 30, -1, -1, 0,
   [(50, 0)], [], []⟩

/-- A mapped forward 50M record at position 200 of reference 0. -/
def exCurMapped : Rec1 :=
  ⟨"q", flagsClear, 0, 200, 30, -1, -1, 0, [(50, 0)], [], []⟩

/-- C3 counterexample: both records are mapped and on the same
reference, yet because one carries a stale mate-unmapped flag (which
`sync_mate` never clears) the pair step leaves both insert sizes 0
instead of the claimed 5-prime-coordinate difference (here 100). -/
theorem C3_isize_counterexample :
    exPreStale.flag.unmap = false ∧ exCurMapped.flag.unmap = false ∧
    exPreStale.tid = exCurMapped.tid ∧
    fivePrime exCurMapped - fivePrime exPreStale = 100 ∧
    (pairStep ⟨false, true, false, false⟩ exPreStale exCurMapped
        (bamEndpos exPreStale) (bamEndpos exCurMapped)).1.isize = 0 ∧
    (pairStep ⟨false, true, false, false⟩ exPreStale exCurMapped
        (bamEndpos exPreStale) (bamEndpos exCurMapped)).2.isize = 0 := by
  decide

/-- C3 (amended): for a primary pair processed by the pair step of
`bam_mating_core`, (1) if both records are mapped, on the same
reference, and neither carries the (never-cleared) mate-unmapped flag,
then each record's insert size is the other's 5-prime coordinate minus
its own, and the two insert sizes are numerical negatives of each
other; (2) if they are on different references, or either is unmapped,
or either carries the mate-unmapped flag, both insert sizes are 0. -/
theorem C3_isize_amended :
    (∀ (cfg : MateCfg) (pre cur : Rec1),
      pre.flag.unmap = false → cur.flag.unmap = false →
      pre.flag.munmap = false → cur.flag.munmap = false →
      pre.tid = cur.tid →
      (pairStep cfg pre cur (bamEndpos pre) (bamEndpos cur)).1.isize =
        fivePrime cur - fivePrime pre ∧
      (pairStep cfg pre cur (bamEndpos pre) (bamEndpos cur)).2.isize =
        fivePrime pre - fivePrime cur ∧
      (pairStep cfg pre cur (bamEndpos pre) (bamEndpos cur)).1.isize =
        -(pairStep cfg pre cur (bamEndpos pre) (bamEndpos cur)).2.isize) ∧
    (∀ (cfg : MateCfg) (pre cur : Rec1) (preEnd curEnd : Int),
      (pre.tid ≠ cur.tid ∨ pre.flag.unmap = true ∨ cur.flag.unmap = true ∨
       pre.flag.munmap = true ∨ cur.flag.munmap = true) →
      (pairStep cfg pre cur preEnd curEnd).1.isize = 0 ∧
      (pairStep cfg pre cur preEnd curEnd).2.isize = 0) := by
  constructor
  · intro cfg pre cur hpu hcu hpm hcm ht
    have h1 :
        (pairStep cfg pre cur (bamEndpos pre) (bamEndpos cur)).1.isize =
          fivePrime cur - fivePrime pre := by
      simp [pairStep, pairRemoveFix, pairMateScore, pairProperCheck, pairCt, pairIsize, pairSync, syncMate_fst_flag, syncMate_snd_flag, syncMate_fst_tid,
            syncMate_snd_tid, syncMate_fst_pos, syncMate_snd_pos,
            bamTemplateCigar_fst_isize, bamTemplateCigar_snd_isize,
            addMateScore_isize, clearBadFlags_isize, apply_ite Rec1.isize,
            apply_ite (Prod.fst : Rec1 × Rec1 → Rec1),
            apply_ite (Prod.snd : Rec1 × Rec1 → Rec1),
            hpu, hcu, hpm, hcm, ht, fivePrime]
    have h2 :
        (pairStep cfg pre cur (bamEndpos pre) (bamEndpos cur)).2.isize =
          fivePrime pre - fivePrime cur := by
      simp [pairStep, pairRemoveFix, pairMateScore, pairProperCheck, pairCt, pairIsize, pairSync, syncMate_fst_flag, syncMate_snd_flag, syncMate_fst_tid,
            syncMate_snd_tid, syncMate_fst_pos, syncMate_snd_pos,
            bamTemplateCigar_fst_isize, bamTemplateCigar_snd_isize,
            addMateScore_isize, clearBadFlags_isize, apply_ite Rec1.isize,
            apply_ite (Prod.fst : Rec1 × Rec1 → Rec1),
            apply_ite (Prod.snd : Rec1 × Rec1 → Rec1),
            hpu, hcu, hpm, hcm, ht, fivePrime]
    refine ⟨h1, h2, ?_⟩
    rw [h1, h2]
    omega
  · intro cfg pre cur preEnd curEnd h
    cases hpu : pre.flag.unmap <;> cases hcu : cur.flag.unmap
    · have ht : ¬(pre.tid = cur.tid) ∨ pre.flag.munmap = true ∨
          cur.flag.munmap = true := by
        rcases h with h | h | h | h | h
        · exact Or.inl h
        · rw [hpu] at h; exact absurd h (by simp)
        · rw [hcu] at h; exact absurd h (by simp)
        · exact Or.inr (Or.inl h)
        · exact Or.inr (Or.inr h)
      rcases ht with ht | ht | ht <;>
        simp [pairStep, pairRemoveFix, pairMateScore, pairProperCheck, pairCt, pairIsize, pairSync, syncMate_fst_flag, syncMate_snd_flag,
              syncMate_fst_tid, syncMate_snd_tid,
              bamTemplateCigar_fst_isize, bamTemplateCigar_snd_isize,
              addMateScore_isize, clearBadFlags_isize,
              apply_ite Rec1.isize,
              apply_ite (Prod.fst : Rec1 × Rec1 → Rec1),
              apply_ite (Prod.snd : Rec1 × Rec1 → Rec1), hpu, hcu, ht]
    all_goals
      simp [pairStep, pairRemoveFix, pairMateScore, pairProperCheck, pairCt, pairIsize, pairSync, syncMate_fst_flag, syncMate_snd_flag,
            syncMate_fst_tid, syncMate_snd_tid,
            bamTemplateCigar_fst_isize, bamTemplateCigar_snd_isize,
            addMateScore_isize, clearBadFlags_isize,
            apply_ite Rec1.isize,
            apply_ite (Prod.fst : Rec1 × Rec1 → Rec1),
            apply_ite (Prod.snd : Rec1 × Rec1 → Rec1), hpu, hcu]

/-- Witness for C3 (amended) at a concrete mapped pair. -/
theorem C3_isize_amended_witness :
    (pairStep ⟨false, true, false, false⟩ exClean exCurMapped
        (bamEndpos exClean) (bamEndpos exCurMapped)).1.isize =
      fivePrime exCurMapped - fivePrime exClean :=
  (C3_isize_amended.1 ⟨false, true, false, false⟩ exClean exCurMapped
    rfl rfl rfl rfl rfl).1

/-! ### C7 / C8: the unpaired-primary cleanup and the null `pre` access -/

theorem getD_set {α : Type} (a d : α) :
    ∀ (l : List α) (i j : Nat),
      (l.set i a).getD j d =
        if i = j ∧ i < l.length then a else l.getD j d := by
  intro l
  induction l with
  | nil => intro i j; simp
  | cons x xs ih =>
    intro i j
    cases i with
    | zero =>
      cases j with
      | zero => simp
      | succ j' => simp
    | succ i' =>
      cases j with
      | zero => simp
      | succ j' =>
        simp only [List.set, List.getD_cons_succ, List.length_cons, ih i' j']
        by_cases h : i' = j' ∧ i' < xs.length
        · rw [if_pos h, if_pos ⟨by omega, by omega⟩]
        · rw [if_neg h, if_neg (by omega)]

theorem isPrimary_false_iff (r : Rec1) :
    isPrimary r = false ↔
      (r.flag.secondary = true ∨ r.flag.supp = true) := by
  unfold isPrimary
  cases hs : r.flag.secondary <;> cases hp : r.flag.supp <;> simp

theorem isPrimary_true_iff (r : Rec1) :
    isPrimary r = true ↔
      (r.flag.secondary = false ∧ r.flag.supp = false) := by
  unfold isPrimary
  cases hs : r.flag.secondary <;> cases hp : r.flag.supp <;> simp

theorem scanStep_not_primary (cfg : MateCfg) (st : ScanState) (n : Nat)
    (h : isPrimary (st.recs.getD n default) = false) :
    scanStep cfg st n = st := by
  have h' := (isPrimary_false_iff _).mp h
  unfold scanStep scanStepR
  rw [if_pos h']

theorem scanStep_first_primary (cfg : MateCfg) (st : ScanState) (n : Nat)
    (hpre : st.pre = none)
    (hprim : isPrimary (st.recs.getD n default) = true) :
    scanStep cfg st n =
      { st with
        pre := some n
        preEnd := if ¬(st.recs.getD n default).flag.unmap then
            bamEndpos (st.recs.getD n default) else 0 } := by
  have h' := (isPrimary_true_iff _).mp hprim
  have h1 : ¬((st.recs.getD n default).flag.secondary = true ∨
      (st.recs.getD n default).flag.supp = true) := by
    rintro (h | h) <;> simp_all
  unfold scanStep scanStepR
  rw [if_neg h1, hpre]

theorem scanGo_skip (cfg : MateCfg) :
    ∀ (fuel n : Nat) (st : ScanState),
      (∀ m, n ≤ m → m < n + fuel →
        isPrimary (st.recs.getD m default) = false) →
      scanGo cfg st n fuel = st := by
  intro fuel
  induction fuel with
  | zero => intro n st _; rfl
  | succ k ih =>
    intro n st h
    rw [scanGo, scanStep_not_primary cfg st n (h n le_rfl (by omega))]
    exact ih (n + 1) st (fun m h1 h2 => h m (by omega) (by omega))

theorem scanGo_one_primary (cfg : MateCfg) (i : Nat) :
    ∀ (fuel n : Nat) (st : ScanState), st.pre = none →
      n ≤ i → i < n + fuel →
      isPrimary (st.recs.getD i default) = true →
      (∀ j, n ≤ j → j < n + fuel → j ≠ i →
        isPrimary (st.recs.getD j default) = false) →
      scanGo cfg st n fuel =
        { st with
          pre := some i
          preEnd := if ¬(st.recs.getD i default).flag.unmap then
              bamEndpos (st.recs.getD i default) else 0 } := by
  intro fuel
  induction fuel with
  | zero => intro n st _ h1 h2; omega
  | succ k ih =>
    intro n st hpre h1 h2 hprim hrest
    by_cases hn : n = i
    · subst hn
      rw [scanGo, scanStep_first_primary cfg st n hpre hprim]
      exact scanGo_skip cfg k (n + 1) _
        (fun m hm1 hm2 => hrest m (by omega) (by omega) (by omega))
    · rw [scanGo, scanStep_not_primary cfg st n
        (hrest n le_rfl (by omega) hn)]
      exact ih (n + 1) st hpre (by omega) (by omega) hprim
        (fun j hj1 hj2 => hrest j (by omega) (by omega))

/-- C7: for a template with exactly one primary record (at index `i`),
the orchestrator produces the template with that record's mate
reference id and mate position set to -1, insert size 0, and the
paired, mate-reverse and proper-pair flags cleared. -/
theorem C7_unpaired_cleanup (cfg : MateCfg) (recs : List Rec1) (i : Nat)
    (hi : i < recs.length)
    (hp : isPrimary (recs.getD i default) = true)
    (ho : ∀ j, j < recs.length → j ≠ i →
      isPrimary (recs.getD j default) = false) :
    matingFixups cfg recs =
      some (recs.set i (cleanupUnpaired (recs.getD i default))) ∧
    (cleanupUnpaired (recs.getD i default)).mtid = -1 ∧
    (cleanupUnpaired (recs.getD i default)).mpos = -1 ∧
    (cleanupUnpaired (recs.getD i default)).isize = 0 ∧
    (cleanupUnpaired (recs.getD i default)).flag.paired = false ∧
    (cleanupUnpaired (recs.getD i default)).flag.mreverse = false ∧
    (cleanupUnpaired (recs.getD i default)).flag.proper = false := by
  refine ⟨?_, rfl, rfl, rfl, rfl, rfl, rfl⟩
  unfold matingFixups
  rw [scanGo_one_primary cfg i recs.length 0 ⟨recs, none, none, 0, 0⟩ rfl
    (by omega) (by omega) hp (fun j h1 h2 => ho j (by omega))]

/-- A lone secondary record. -/
def exSec : Rec1 :=
  ⟨"q", { flagsClear with secondary := true }, 0, 0, 30, -1, -1, 0,
   [(10, 0)], [], []⟩

/-- A primary record with paired/mreverse/proper set and mate fields
filled, to exercise the cleanup. -/
def exPaired : Rec1 :=
  ⟨"q", { flagsClear with paired := true, mreverse := true, proper := true },
   0, 0, 30, 3, 9, 7, [(10, 0)], [], []⟩

/-- Witness for C7 at a concrete two-record template whose only
primary is at index 1. -/
theorem C7_unpaired_cleanup_witness :
    matingFixups ⟨false, true, false, false⟩ [exSec, exPaired] =
      some ([exSec, exPaired].set 1
        (cleanupUnpaired ([exSec, exPaired].getD 1 default))) :=
  (C7_unpaired_cleanup ⟨false, true, false, false⟩ [exSec, exPaired] 1
    (by decide) (by decide)
    (fun j h1 h2 => by
      have hl : ([exSec, exPaired] : List Rec1).length = 2 := rfl
      rw [hl] at h1
      have : j = 0 := by omega
      subst this; decide)).1

/-- C8 (code evaluation): on a template whose records are all
secondary or supplementary, no `pre` is ever selected and the
unpaired-primary cleanup `if (!cur) { pre->core.mtid = ... }`
dereferences the null `pre` pointer — modelled as `none`. -/
theorem C8_null_pre_eval :
    matingFixups ⟨false, true, false, false⟩ [exSec] = none := by
  decide

/-! ### C9: the proper-pair flag is only ever cleared -/

theorem clearBadFlags_proper (r : Rec1) :
    (clearBadFlags r).flag.proper = false := rfl

theorem addMateScore_flag (s d : Rec1) : (addMateScore s d).flag = d.flag := rfl

theorem cleanupUnpaired_proper (r : Rec1) :
    (cleanupUnpaired r).flag.proper = false := rfl

theorem bamTemplateCigar_fst_flag (a b : Rec1) :
    (bamTemplateCigar a b).1.flag = a.flag := by
  unfold bamTemplateCigar
  split
  · rfl
  · dsimp only
    split <;> rfl

theorem bamTemplateCigar_snd_flag (a b : Rec1) :
    (bamTemplateCigar a b).2.flag = b.flag := by
  unfold bamTemplateCigar
  split
  · rfl
  · dsimp only
    split <;> rfl

theorem pairSync_fst_proper (a b : Rec1) :
    (pairSync a b).1.flag.proper = a.flag.proper := by
  rw [pairSync, syncMate_fst_flag]

theorem pairSync_snd_proper (a b : Rec1) :
    (pairSync a b).2.flag.proper = b.flag.proper := by
  rw [pairSync, syncMate_snd_flag]

theorem pairIsize_fst_flag (pc : Rec1 × Rec1) (pe ce : Int) :
    (pairIsize pc pe ce).1.flag = pc.1.flag := by
  unfold pairIsize
  dsimp only
  split <;> rfl

theorem pairIsize_snd_flag (pc : Rec1 × Rec1) (pe ce : Int) :
    (pairIsize pc pe ce).2.flag = pc.2.flag := by
  unfold pairIsize
  dsimp only
  split <;> rfl

theorem pairCt_fst_flag (cfg : MateCfg) (pc : Rec1 × Rec1) :
    (pairCt cfg pc).1.flag = pc.1.flag := by
  unfold pairCt
  split
  · rw [bamTemplateCigar_fst_flag]
  · rfl

theorem pairCt_snd_flag (cfg : MateCfg) (pc : Rec1 × Rec1) :
    (pairCt cfg pc).2.flag = pc.2.flag := by
  unfold pairCt
  split
  · rw [bamTemplateCigar_snd_flag]
  · rfl

theorem pairProperCheck_fst_proper (cfg : MateCfg) (pc : Rec1 × Rec1)
    (h : (pairProperCheck cfg pc).1.flag.proper = true) :
    pc.1.flag.proper = true := by
  unfold pairProperCheck at h
  split at h
  · exact absurd h (by simp)
  · exact h

theorem pairProperCheck_snd_proper (cfg : MateCfg) (pc : Rec1 × Rec1)
    (h : (pairProperCheck cfg pc).2.flag.proper = true) :
    pc.2.flag.proper = true := by
  unfold pairProperCheck at h
  split at h
  · exact absurd h (by simp)
  · exact h

theorem pairMateScore_fst_flag (cfg : MateCfg) (pc : Rec1 × Rec1) :
    (pairMateScore cfg pc).1.flag = pc.1.flag := by
  unfold pairMateScore
  split <;> rfl

theorem pairMateScore_snd_flag (cfg : MateCfg) (pc : Rec1 × Rec1) :
    (pairMateScore cfg pc).2.flag = pc.2.flag := by
  unfold pairMateScore
  split <;> rfl

theorem pairRemoveFix_fst_proper (cfg : MateCfg) (pc : Rec1 × Rec1)
    (h : (pairRemoveFix cfg pc).1.flag.proper = true) :
    pc.1.flag.proper = true := by
  unfold pairRemoveFix at h
  split at h
  · dsimp only at h
    split at h <;> split at h <;>
      first
        | exact h
        | exact absurd h (by simp [clearBadFlags])
  · exact h

theorem pairRemoveFix_snd_proper (cfg : MateCfg) (pc : Rec1 × Rec1)
    (h : (pairRemoveFix cfg pc).2.flag.proper = true) :
    pc.2.flag.proper = true := by
  unfold pairRemoveFix at h
  split at h
  · dsimp only at h
    split at h
    · exact absurd h (by simp [clearBadFlags])
    · exact h
  · exact h

theorem pairStep_proper_fst (cfg : MateCfg) (a b : Rec1) (pe ce : Int)
    (h : (pairStep cfg a b pe ce).1.flag.proper = true) :
    a.flag.proper = true := by
  rw [pairStep] at h
  have h1 := pairRemoveFix_fst_proper _ _ h
  rw [pairMateScore_fst_flag] at h1
  have h2 := pairProperCheck_fst_proper _ _ h1
  rw [pairCt_fst_flag, pairIsize_fst_flag, pairSync_fst_proper] at h2
  exact h2

theorem pairStep_proper_snd (cfg : MateCfg) (a b : Rec1) (pe ce : Int)
    (h : (pairStep cfg a b pe ce).2.flag.proper = true) :
    b.flag.proper = true := by
  rw [pairStep] at h
  have h1 := pairRemoveFix_snd_proper _ _ h
  rw [pairMateScore_snd_flag] at h1
  have h2 := pairProperCheck_snd_proper _ _ h1
  rw [pairCt_snd_flag, pairIsize_snd_flag, pairSync_snd_proper] at h2
  exact h2

theorem scanStepR_recs_cases (cfg : MateCfg) (st : ScanState) (n : Nat)
    (r : Rec1) :
    (scanStepR cfg st n r).recs = st.recs ∨
    ∃ p ce, st.pre = some p ∧
      (scanStepR cfg st n r).recs =
        (st.recs.set p
          (pairStep cfg (st.recs.getD p default) r st.preEnd ce).1).set n
          (pairStep cfg (st.recs.getD p default) r st.preEnd ce).2 := by
  unfold scanStepR
  split
  · exact Or.inl rfl
  · cases hpre : st.pre with
    | none => exact Or.inl rfl
    | some p =>
      exact Or.inr ⟨p, if ¬r.flag.unmap then bamEndpos r else 0, rfl, rfl⟩

theorem scanStep_proper_mono (cfg : MateCfg) (st : ScanState) (n : Nat)
    (R : List Rec1)
    (hmono : ∀ i, (st.recs.getD i default).flag.proper = true →
      (R.getD i default).flag.proper = true) :
    ∀ i, ((scanStep cfg st n).recs.getD i default).flag.proper = true →
      (R.getD i default).flag.proper = true := by
  intro i hi
  rw [scanStep] at hi
  rcases scanStepR_recs_cases cfg st n (st.recs.getD n default) with
    hc | ⟨p, ce, hp, hc⟩
  · rw [hc] at hi
    exact hmono i hi
  · rw [hc] at hi
    set pc := pairStep cfg (st.recs.getD p default) (st.recs.getD n default)
      st.preEnd ce with hpc
    rw [getD_set, getD_set] at hi
    by_cases h1 : n = i ∧ n < (st.recs.set p pc.1).length
    · rw [if_pos h1] at hi
      exact h1.1 ▸ hmono n (pairStep_proper_snd _ _ _ _ _ hi)
    · rw [if_neg h1] at hi
      by_cases h2 : p = i ∧ p < st.recs.length
      · rw [if_pos h2] at hi
        exact h2.1 ▸ hmono p (pairStep_proper_fst _ _ _ _ _ hi)
      · rw [if_neg h2] at hi
        exact hmono i hi

theorem scanGo_proper_mono (cfg : MateCfg) (R : List Rec1) :
    ∀ (fuel n : Nat) (st : ScanState),
      (∀ i, (st.recs.getD i default).flag.proper = true →
        (R.getD i default).flag.proper = true) →
      ∀ i, ((scanGo cfg st n fuel).recs.getD i default).flag.proper = true →
        (R.getD i default).flag.proper = true := by
  intro fuel
  induction fuel with
  | zero => intro n st h i; exact h i
  | succ k ih =>
    intro n st h i
    rw [scanGo]
    exact ih (n + 1) _ (scanStep_proper_mono cfg st n R h) i

theorem sanStep1_flag_proper (f : FixFlags) (b : Rec1) :
    (sanStep1 f b).flag.proper = b.flag.proper := by
  unfold sanStep1
  split
  · split <;> rfl
  · rfl

theorem sanStep3_flag (f : FixFlags) (b : Rec1) :
    (sanStep3 f b).flag = b.flag := by
  unfold sanStep3
  split
  · dsimp only
    split <;> split <;> split <;> rfl
  · rfl

theorem bamTrim_proper_mono (b : Rec1) (e : Int) (b' : Rec1)
    (h : bamTrim b e = some b') :
    b'.flag.proper = true → b.flag.proper = true := by
  unfold bamTrim at h
  cases hw : trimWalk e b.cigar b.pos 0 with
  | none =>
    rw [hw] at h
    simp only [Option.some.injEq] at h
    subst h
    exact id
  | some q =>
    obtain ⟨i, pos, op, oplen⟩ := q
    rw [hw] at h
    dsimp only at h
    split_ifs at h with h1 h2
    · cases habs : absorbTail (b.cigar.drop (i + 1))
          [((pos - e).toNat, 4)] with
      | none => rw [habs] at h; exact absurd h (by simp)
      | some nc =>
        rw [habs] at h
        simp only [Option.some.injEq] at h
        subst h
        exact id
    · cases habs : absorbTail (b.cigar.drop (i + 1)) [] with
      | none => rw [habs] at h; exact absurd h (by simp)
      | some nc =>
        rw [habs] at h
        simp only [Option.some.injEq] at h
        subst h
        intro hp
        exact absurd hp (by simp)
    · cases habs : absorbTail (b.cigar.drop (i + 1)) [(oplen, 4)] with
      | none => rw [habs] at h; exact absurd h (by simp)
      | some nc =>
        rw [habs] at h
        simp only [Option.some.injEq] at h
        subst h
        exact id

theorem sanStep2_proper_mono (hdr : Int → Int) (f : FixFlags) (b b' : Rec1)
    (h : sanStep2 hdr f b = some b') :
    b'.flag.proper = true → b.flag.proper = true := by
  unfold sanStep2 at h
  by_cases hc : f.cigar = true ∧ ¬b.flag.unmap = true
  · rw [if_pos hc] at h
    by_cases hp : b.pos < 0 ∧ f.unmap = true
    · rw [if_pos hp] at h
      simp only [Option.some.injEq] at h
      subst h
      exact id
    · rw [if_neg hp] at h
      dsimp only at h
      by_cases hr : b.pos ≥ hdr b.tid ∧ f.unmap = true
      · rw [if_pos hr] at h
        simp only [Option.some.injEq] at h
        subst h
        split <;> exact id
      · rw [if_neg hr] at h
        by_cases ht : bamEndpos b > hdr b.tid
        · rw [if_pos ht] at h
          exact bamTrim_proper_mono b (hdr b.tid) b' h
        · rw [if_neg ht] at h
          simp only [Option.some.injEq] at h
          subst h
          exact id
  · rw [if_neg hc] at h
    simp only [Option.some.injEq] at h
    subst h
    exact id

theorem bamSanitize_proper_mono (hdr : Int → Int) (r : Rec1) (f : FixFlags)
    (r' : Rec1) (h : bamSanitize hdr r f = some r') :
    r'.flag.proper = true → r.flag.proper = true := by
  unfold bamSanitize at h
  cases h2 : sanStep2 hdr f (sanStep1 f r) with
  | none => rw [h2] at h; exact absurd h (by simp)
  | some b2 =>
    rw [h2] at h
    simp only [Option.map_some', Option.some.injEq] at h
    subst h
    intro hp
    rw [sanStep3_flag] at hp
    have := sanStep2_proper_mono hdr f _ _ h2 hp
    rwa [sanStep1_flag_proper] at this

/-- C9: the core never sets the proper-pair flag.  (1) For any record
of a template processed by the orchestrator's fixup phase, if its
proper-pair flag is set afterwards it was set before; (2) likewise
for a record passed through the sanitizer (including the CIGAR trim).
Every modification the program makes to the flag only clears it. -/
theorem C9_proper_never_set :
    (∀ (cfg : MateCfg) (recs out : List Rec1),
      matingFixups cfg recs = some out →
      ∀ i : Nat, (out.getD i default).flag.proper = true →
        (recs.getD i default).flag.proper = true) ∧
    (∀ (hdr : Int → Int) (r : Rec1) (f : FixFlags) (r' : Rec1),
      bamSanitize hdr r f = some r' →
      r'.flag.proper = true → r.flag.proper = true) := by
  constructor
  · intro cfg recs out h i hi
    have hmono := scanGo_proper_mono cfg recs recs.length 0
      ⟨recs, none, none, 0, 0⟩ (fun j hj => hj)
    unfold matingFixups at h
    dsimp only at h
    cases hcur : (scanGo cfg ⟨recs, none, none, 0, 0⟩ 0 recs.length).cur with
    | some c =>
      rw [hcur] at h
      dsimp only at h
      simp only [Option.some.injEq] at h
      subst h
      exact hmono i hi
    | none =>
      rw [hcur] at h
      dsimp only at h
      cases hpre : (scanGo cfg ⟨recs, none, none, 0, 0⟩ 0 recs.length).pre with
      | none => rw [hpre] at h; exact absurd h (by simp)
      | some p =>
        rw [hpre] at h
        dsimp only at h
        simp only [Option.some.injEq] at h
        subst h
        rw [getD_set] at hi
        split_ifs at hi with h1
        · exact absurd hi (by simp [cleanupUnpaired_proper])
        · exact hmono i hi
  · exact bamSanitize_proper_mono

/-- A secondary record whose proper-pair flag is set on input. -/
def exProperSec : Rec1 :=
  ⟨"q", { flagsClear with proper := true, secondary := true }, 0, 0, 30,
   -1, -1, 0, [(10, 0)], [], []⟩

/-- Witness for C9 at a concrete template: a secondary record with the
proper-pair flag set passes through the fixups with the flag still
set, and the theorem traces it back to the input. -/
theorem C9_proper_never_set_witness :
    ([exProperSec, exPaired].getD 0 default).flag.proper = true :=
  C9_proper_never_set.1 ⟨false, true, false, false⟩ [exProperSec, exPaired]
    [exProperSec, cleanupUnpaired exPaired] (by decide) 0 (by decide)

/-! ### C1: the batch reader sanitizes only slot 0 -/

/-- A record needing sanitization: unset reference id (-1) but a set
position (5), same name as `exClean`. -/
def exDirty : Rec1 := ⟨"q", flagsClear, -1, 5, 30, -1, -1, 0, [], [], []⟩

/-- What `bam_sanitize` with all fixes enabled makes of `exDirty`:
position cleared to -1, unmapped flag set, mapping quality zeroed. -/
def exDirtySan : Rec1 :=
  ⟨"q", { flagsClear with unmap := true }, -1, -1, 0, -1, -1, 0, [], [], []⟩

/-- C1 (code evaluation): fetching the two-record group
`[exClean, exDirty]` returns n = 2, but the second record of the group
is stored exactly as read — not sanitized — because the read loop
sanitizes `&bs->b[0]` instead of the newly read `&bs->b[bs->n]`;
sanitizing it would have produced `exDirtySan ≠ exDirty`. -/
theorem C1_unsanitized_record_eval :
    nextTemplate (fun _ => 100) fixAll ⟨[], 0, -1, false⟩ [exClean, exDirty] =
      some (2, ⟨[exClean, exDirty], 2, -1, true⟩, []) ∧
    bamSanitize (fun _ => 100) exDirty fixAll = some exDirtySan ∧
    exDirty ≠ exDirtySan := by
  decide

end BamMate
